import Mathlib

/-!
Verification of the `wgpu-hal` bunnymark example
(`wgpu-hal/examples/bunnymark/main.rs`).

The simulation arithmetic in the source is `f32`; it is embedded here over
`ℚ`, with every program constant (`0.15 * 256`, `-9.8 * 100`, `0.01`, …)
taken at its exact decimal value.  Elapsed nanosecond counts (`u128`) are
embedded as `ℕ`, the `as u32` truncation as `% 2 ^ 32`, and `usize`
population counts as `ℕ`.
-/

namespace Bunnymark

/-- Source: `const MAX_BUNNIES: usize = 1 << 20;` -/
def MAX_BUNNIES : ℕ := 1 <<< 20

/-- Source: `const BUNNY_SIZE: f32 = 0.15 * 256.0;` -/
def BUNNY_SIZE : ℚ := (15 / 100) * 256

/-- Source: `const GRAVITY: f32 = -9.8 * 100.0;` -/
def GRAVITY : ℚ := -(98 / 10) * 100

/-- Source: `const MAX_VELOCITY: f32 = 750.0;` -/
def MAX_VELOCITY : ℚ := 750

/-- Source: `struct Locals` — one per live particle: position, velocity, packed
color, padding (`#[repr(C, align(256))]`). -/
structure Locals where
  position : ℚ × ℚ
  velocity : ℚ × ℚ
  color : ℕ
  pad : ℕ
deriving DecidableEq

/-! ## Spawn policy (`Example::update`) -/

/-- Source: `let spawn_count = 64 + self.bunnies.len() / 2;` -/
def spawnCount (n : ℕ) : ℕ := 64 + n / 2

/-- Source: `let color = elapsed.as_nanos() as u32;` — `u128` truncated to 32 bits. -/
def spawnColor (nanos : ℕ) : ℕ := nanos % 2 ^ 32

/-- One loop iteration of `Example::update`'s spawn loop: the pushed
`Locals` value.  `elapsed` is sampled once before the loop, so each
iteration sees the same `nanos`:
`random = (elapsed.as_nanos() & 0xFF) as f32 / 255.0`,
`speed = random * MAX_VELOCITY - (MAX_VELOCITY * 0.5)`,
`position = [0.0, 0.5 * (self.extent[1] as f32)]`, `velocity = [speed, 0.0]`. -/
def newBunny (nanos : ℕ) (extentY : ℚ) : Locals :=
  let random : ℚ := ((nanos &&& 0xFF : ℕ) : ℚ) / 255
  let speed : ℚ := random * MAX_VELOCITY - MAX_VELOCITY * (1 / 2)
  { position := (0, (1 / 2) * extentY)
    velocity := (speed, 0)
    color := spawnColor nanos
    pad := 0 }

/-- The whole spawn branch of `Example::update` acting on the `bunnies`
vector: push `spawn_count` new instances (no capacity check appears in the
source). -/
def spawnBatch (bunnies : List Locals) (nanos : ℕ) (extentY : ℚ) : List Locals :=
  bunnies ++ (List.range (spawnCount bunnies.length)).map (fun _ => newBunny nanos extentY)

/-- Population after `k` spawn triggers starting from an empty vector
(each trigger adds `spawnCount n` to a population of `n`). -/
def spawnIter : ℕ → ℕ
  | 0 => 0
  | k + 1 => spawnIter k + spawnCount (spawnIter k)

/-! ## Physics step (`Example::render`, the mutation loop) -/

/-- Source: `let delta = 0.01;` -/
def delta : ℚ := 1 / 100

/-- One per-instance physics step from `Example::render`, in source order:
positions integrate with the old velocity, gravity updates `velocity[1]`,
then the `x` reflection test reads the updated position and the (not yet
reflected) `velocity[0]`, and the `y` reflection test reads the updated
position and the post-gravity `velocity[1]`. -/
def physStep (extentX : ℚ) (b : Locals) : Locals :=
  let px := b.position.1 + b.velocity.1 * delta
  let py := b.position.2 + b.velocity.2 * delta
  let vy1 := b.velocity.2 + GRAVITY * delta
  let vx :=
    if (b.velocity.1 > 0 ∧ px + (1 / 2) * BUNNY_SIZE > extentX)
        ∨ (b.velocity.1 < 0 ∧ px - (1 / 2) * BUNNY_SIZE < 0)
    then -b.velocity.1 else b.velocity.1
  let vy := if vy1 < 0 ∧ py < (1 / 2) * BUNNY_SIZE then -vy1 else vy1
  { b with position := (px, py), velocity := (vx, vy) }

/-- States reachable from `b0` by iterating the physics step with a fixed
window width. -/
inductive ReachFrom (extentX : ℚ) (b0 : Locals) : Locals → Prop
  | refl : ReachFrom extentX b0 b0
  | step {b : Locals} : ReachFrom extentX b0 b → ReachFrom extentX b0 (physStep extentX b)

/-! ## One-time upload (`Example::init`) -/

/-- Buffer usage states occurring in the init upload. -/
inductive BufferUse where
  | empty
  | copySrc
deriving DecidableEq

/-- Texture usage states occurring in the init upload. -/
inductive TextureUse where
  | uninitialized
  | copyDst
  | sampled
deriving DecidableEq

/-- Commands recorded into the `init` command buffer. -/
inductive InitCmd where
  | transitionBuffer (src dst : BufferUse)
  | transitionTexture (src dst : TextureUse)
  | copyBufferToTexture
deriving DecidableEq

/-- Host-side events of the init upload, in program order. -/
inductive InitEvent where
  | record (c : InitCmd)
  | finishCmd
  | submitWithFence
  | waitFence
  | destroyFence
  | destroyStagingBuffer
deriving DecidableEq

/-- The commands recorded into `init_cmd`, in source order:
`transition_buffers(empty..COPY_SRC)`,
`transition_textures(UNINITIALIZED..COPY_DST)`,
`copy_buffer_to_texture`, `transition_textures(COPY_DST..SAMPLED)`. -/
def initCmdList : List InitCmd :=
  [ .transitionBuffer .empty .copySrc
  , .transitionTexture .uninitialized .copyDst
  , .copyBufferToTexture
  , .transitionTexture .copyDst .sampled ]

/-- The init-upload event trace of `Example::init`: record the four
commands, then `init_cmd.finish()`, `queue.submit(.., Some((&fence, 1)))`,
`device.wait(&fence, ..)`, `device.destroy_fence(fence)`,
`device.destroy_buffer(staging_buffer)`. -/
def initEvents : List InitEvent :=
  initCmdList.map InitEvent.record
    ++ [.finishCmd, .submitWithFence, .waitFence, .destroyFence, .destroyStagingBuffer]

/-! ## Staging buffer and the buffer→texture copy (`Example::init`) -/

/-- Source: `let texture_data = vec![0xFFu8; 3];` -/
def texture_data : List ℕ := List.replicate 3 0xFF

/-- Source: `staging_buffer_desc.size = texture_data.len()`. -/
def stagingBufferSize : ℕ := texture_data.length

/-- The uploaded texture is 1×1 (`texture_desc.size`). -/
def textureWidth : ℕ := 1

/-- Height of the uploaded texture. -/
def textureHeight : ℕ := 1

/-- Modelled from the spec: the byte size of one `Rgba8UnormSrgb` texel
(the format's definition lives in the `wgpu-types` crate, outside the
given source); the spec's end-to-end scenario fixes it at 4 bytes for the
1×1 placeholder texture. -/
def bytesPerTexelRgba8 : ℕ := 4

/-- Source: `buffer_layout.bytes_per_row = NonZeroU32::new(4)` in the
`hal::BufferTextureCopy`. -/
def copyBytesPerRow : ℕ := 4

/-- Bytes the described buffer→texture copy reads from the staging buffer
starting at `offset = 0`: full rows at `bytes_per_row` stride, and the
last row's `width` texels. -/
def copyBytesRead : ℕ :=
  copyBytesPerRow * (textureHeight - 1) + textureWidth * bytesPerTexelRgba8

/-- Raw texel byte size of the uploaded texture. -/
def rawTexelBytes : ℕ := textureWidth * textureHeight * bytesPerTexelRgba8

/-! ## Local dynamic uniform buffer layout (`Example::render`) -/

/-- Modelled from the spec: `wgt::BIND_BUFFER_ALIGNMENT` (defined in the
`wgpu-types` crate, outside the given source) — the conservative
device-required minimum dynamic uniform-buffer offset alignment, 256
bytes, used by the source as the record stride. -/
def BIND_BUFFER_ALIGNMENT : ℕ := 256

/-- Source: `mem::size_of::<Locals>()`: fields occupy 24 bytes, and
`#[repr(C, align(256))]` pads the size to the 256-byte alignment. -/
def sizeOfLocals : ℕ := 256

/-- Byte offset of element `i` in the contiguous `Vec<Locals>` snapshot
copied wholesale into the local buffer (`copy_nonoverlapping` of
`bunnies.len() * BIND_BUFFER_ALIGNMENT` bytes). -/
def writeOffset (i : ℕ) : ℕ := i * sizeOfLocals

/-- Dynamic offset used by draw `i`:
`(i as DynamicOffset) * (BIND_BUFFER_ALIGNMENT as DynamicOffset)`. -/
def drawOffset (i : ℕ) : ℕ := i * BIND_BUFFER_ALIGNMENT

/-- Record-granular contents of the local buffer after the frame's
wholesale rewrite: a record starts at every multiple of
`sizeOfLocals` holding the corresponding element of `bunnies`. -/
def writtenBuffer (bunnies : List Locals) (off : ℕ) : Option Locals :=
  if off % sizeOfLocals = 0 then bunnies.get? (off / sizeOfLocals) else none

/-- The record read by the draw issued with dynamic offset `drawOffset i`
(the binding's size is `sizeOfLocals` starting at the dynamic offset). -/
def readAtDraw (bunnies : List Locals) (i : ℕ) : Option Locals :=
  writtenBuffer bunnies (drawOffset i)

/-- Source: `local_buffer_desc.size = (MAX_BUNNIES as BufferAddress) * wgt::BIND_BUFFER_ALIGNMENT`. -/
def localBufferSize : ℕ := MAX_BUNNIES * BIND_BUFFER_ALIGNMENT

/-- Bytes mapped and rewritten each frame:
`let size = self.bunnies.len() * wgt::BIND_BUFFER_ALIGNMENT as usize;`. -/
def mappedBytes (n : ℕ) : ℕ := n * BIND_BUFFER_ALIGNMENT

/-! ## Claim theorems -/

/-- Claim C1 (code evidence of the violation): the spawn handler has no
capacity check, so 23 consecutive spawn triggers starting from an empty
population reach 1436111 instances, which exceeds `MAX_BUNNIES = 1048576`;
the frame's buffer map then covers more bytes than the pre-allocated local
buffer holds.  This refutes the claim that a batch pushing
`current_count + batch_size` past the capacity is rejected. -/
theorem C1_capacity_overflow :
    spawnIter 23 = 1436111 ∧
    MAX_BUNNIES < spawnIter 23 ∧
    localBufferSize < mappedBytes (spawnIter 23) := by
  decide

/-- Claim C2: the one-time upload records, in one command buffer, exactly
the four commands in the fixed order (staging buffer to copy-source,
texture uninitialized to copy-destination, buffer-to-texture copy, texture
copy-destination to sampled-read), then finishes, submits with a fence,
waits on the fence, and only after the wait destroys the fence and the
staging buffer. -/
theorem C2_upload_sequence :
    initEvents =
      [ .record (.transitionBuffer .empty .copySrc)
      , .record (.transitionTexture .uninitialized .copyDst)
      , .record .copyBufferToTexture
      , .record (.transitionTexture .copyDst .sampled)
      , .finishCmd, .submitWithFence, .waitFence, .destroyFence
      , .destroyStagingBuffer ] ∧
    initEvents.indexOf InitEvent.waitFence
      < initEvents.indexOf InitEvent.destroyStagingBuffer ∧
    initEvents.indexOf InitEvent.waitFence
      < initEvents.indexOf InitEvent.destroyFence ∧
    initEvents.indexOf InitEvent.submitWithFence
      < initEvents.indexOf InitEvent.waitFence := by
  decide

/-- Claim C3 (code evidence of the violation): the staging buffer is sized
from `vec![0xFFu8; 3]` — 3 bytes — while the 1×1 `Rgba8UnormSrgb` texture
holds 4 raw texel bytes and the described copy (`bytes_per_row = 4`, one
row of one texel) reads 4 bytes, i.e. past the end of the staging buffer.
This refutes the claim that the staging buffer size equals the raw texel
byte size and that the copy stays within the buffer. -/
theorem C3_staging_buffer_too_small :
    stagingBufferSize = 3 ∧ rawTexelBytes = 4 ∧ copyBytesRead = 4 ∧
    ¬ (stagingBufferSize = rawTexelBytes ∧ copyBytesRead ≤ stagingBufferSize) := by
  decide

/-- Claim C7: a spawn trigger with current population `n` adds exactly
`64 + n / 2` new instances (integer division); with `n = 0` it always adds
exactly 64. -/
theorem C7_spawn_batch_size (bs : List Locals) (nanos : ℕ) (extentY : ℚ) :
    (spawnBatch bs nanos extentY).length = bs.length + (64 + bs.length / 2) ∧
    spawnCount 0 = 64 := by
  simp [spawnBatch, spawnCount]

/-- Claim C10: the elapsed time is sampled once per trigger, so every
instance of a single spawn batch is the same record — same position, same
velocity (including the pseudo-random speed), same color; the batch is a
replicate of one value. -/
theorem C10_batch_uniform (bs : List Locals) (nanos : ℕ) (extentY : ℚ) :
    spawnBatch bs nanos extentY
      = bs ++ List.replicate (spawnCount bs.length) (newBunny nanos extentY) ∧
    ∀ b ∈ (spawnBatch bs nanos extentY).drop bs.length, b = newBunny nanos extentY := by
  refine ⟨?_, ?_⟩
  · simp [spawnBatch, List.map_const']
  · intro b hb
    rw [spawnBatch, List.drop_left] at hb
    rcases List.mem_map.mp hb with ⟨a, _, rfl⟩
    rfl

/-- Claim C8: every spawned instance starts at position
`(0, window_height / 2)` with velocity `(random_speed, 0)`, where
`random_speed` is the low byte of the elapsed nanoseconds divided by 255
and scaled into `[-MAX_VELOCITY / 2, MAX_VELOCITY / 2]`, and its color is
the elapsed-nanosecond count truncated to 32 bits; `newBunny` is a
function of the elapsed-time input, hence deterministic. -/
theorem C8_new_instance_state (nanos : ℕ) (extentY : ℚ) :
    (newBunny nanos extentY).position.1 = 0 ∧
    (newBunny nanos extentY).position.2 = extentY / 2 ∧
    (newBunny nanos extentY).velocity.2 = 0 ∧
    (newBunny nanos extentY).velocity.1
      = ((nanos &&& 0xFF : ℕ) : ℚ) / 255 * MAX_VELOCITY - MAX_VELOCITY / 2 ∧
    -(MAX_VELOCITY / 2) ≤ (newBunny nanos extentY).velocity.1 ∧
    (newBunny nanos extentY).velocity.1 ≤ MAX_VELOCITY / 2 ∧
    (newBunny nanos extentY).color = nanos % 2 ^ 32 := by
  have hle : ((nanos &&& 0xFF : ℕ) : ℚ) ≤ 255 := by
    exact_mod_cast Nat.cast_le.mpr (Nat.and_le_right)
  have hge : (0 : ℚ) ≤ ((nanos &&& 0xFF : ℕ) : ℚ) := Nat.cast_nonneg _
  refine ⟨rfl, by simp [newBunny]; ring, rfl, ?_, ?_, ?_, rfl⟩
  · simp [newBunny]; ring
  · simp only [newBunny, MAX_VELOCITY]
    linarith
  · simp only [newBunny, MAX_VELOCITY]
    linarith

/-- Claim C9: the record stride used by the source
(`BIND_BUFFER_ALIGNMENT` = 256) equals
`max(sizeof(Locals), device_min_uniform_alignment)` for any device
alignment bounded by the conservative 256-byte constant; the record
written at byte offset `i * stride` by the wholesale buffer rewrite is
exactly the record delivered to the draw issued with dynamic offset
`i * stride`; and for `i ≠ j` the two records' byte ranges are disjoint. -/
theorem C9_stride_roundtrip (a : ℕ) (bs : List Locals) (i j : ℕ)
    (ha : a ≤ BIND_BUFFER_ALIGNMENT) (hij : i ≠ j) :
    BIND_BUFFER_ALIGNMENT = max sizeOfLocals a ∧
    drawOffset i = writeOffset i ∧
    readAtDraw bs i = bs.get? i ∧
    (writeOffset i + sizeOfLocals ≤ writeOffset j
      ∨ writeOffset j + sizeOfLocals ≤ writeOffset i) := by
  refine ⟨?_, rfl, ?_, ?_⟩
  · exact (Nat.max_eq_left ha).symm
  · simp [readAtDraw, writtenBuffer, drawOffset, sizeOfLocals, BIND_BUFFER_ALIGNMENT,
      Nat.mul_mod_left, Nat.mul_div_cancel]
  · rcases Nat.lt_or_ge i j with h | h
    · left
      have : (i + 1) * sizeOfLocals ≤ j * sizeOfLocals :=
        Nat.mul_le_mul_right _ h
      simpa [writeOffset, Nat.add_mul] using this
    · right
      have hj : j < i := lt_of_le_of_ne h (Ne.symm hij)
      have : (j + 1) * sizeOfLocals ≤ i * sizeOfLocals :=
        Nat.mul_le_mul_right _ hj
      simpa [writeOffset, Nat.add_mul] using this

/-- Concrete instantiation of `C9_stride_roundtrip` at device alignment
256, a one-record buffer, and indices 0 and 1. -/
theorem C9_stride_roundtrip_witness :
    BIND_BUFFER_ALIGNMENT = max sizeOfLocals 256 ∧
    drawOffset 0 = writeOffset 0 ∧
    readAtDraw [newBunny 0 600] 0 = [newBunny 0 600].get? 0 ∧
    (writeOffset 0 + sizeOfLocals ≤ writeOffset 1
      ∨ writeOffset 1 + sizeOfLocals ≤ writeOffset 0) :=
  C9_stride_roundtrip 256 [newBunny 0 600] 0 1 (by decide) (by decide)

/-- Claim C4: a physics tick updates `position` by `velocity * delta` on
both axes (the reflections never move the position), and in the
end-to-end scenario — 800×600 window, one spawn trigger at elapsed 0 —
64 instances are created at position `(0, 300)`, and after one tick each
has y-velocity `GRAVITY * delta` (initial y-velocity 0, no ground bounce
at height 300) and x-position `velocity.x * delta`. -/
theorem C4_physics_tick_scenario :
    (∀ (W : ℚ) (b : Locals),
      (physStep W b).position.1 = b.position.1 + b.velocity.1 * delta ∧
      (physStep W b).position.2 = b.position.2 + b.velocity.2 * delta ∧
      ((physStep W b).velocity.2 = b.velocity.2 + GRAVITY * delta ∨
        (physStep W b).velocity.2 = -(b.velocity.2 + GRAVITY * delta))) ∧
    (spawnBatch [] 0 600).length = 64 ∧
    (∀ b ∈ spawnBatch [] 0 600,
      b.position = (0, 300) ∧ b.velocity.2 = 0 ∧
      (physStep 800 b).velocity.2 = GRAVITY * delta ∧
      (physStep 800 b).position.1 = b.velocity.1 * delta) := by
  refine ⟨?_, ?_, ?_⟩
  · intro W b
    refine ⟨rfl, rfl, ?_⟩
    dsimp only [physStep]
    by_cases hcy : b.velocity.2 + GRAVITY * delta < 0
        ∧ b.position.2 + b.velocity.2 * delta < 1 / 2 * BUNNY_SIZE
    · rw [if_pos hcy]; right; rfl
    · rw [if_neg hcy]; left; rfl
  · simp [spawnBatch, spawnCount]
  · intro b hb
    have hrepl : spawnBatch [] 0 600 = List.replicate 64 (newBunny 0 600) := by
      simp [spawnBatch, spawnCount, List.map_const']
    rw [hrepl] at hb
    have hbe := List.eq_of_mem_replicate hb
    subst hbe
    refine ⟨?_, rfl, ?_, ?_⟩
    · norm_num [newBunny, Prod.ext_iff]
    · norm_num [physStep, newBunny, spawnColor, GRAVITY, BUNNY_SIZE, MAX_VELOCITY, delta]
    · norm_num [physStep, newBunny, spawnColor, GRAVITY, BUNNY_SIZE, MAX_VELOCITY, delta]

/-- Claim C5: in a physics step, `velocity.x` is reflected exactly when
the sprite's leading edge at the integrated position would cross the left
or right window bound (moving right and `x + BUNNY_SIZE/2 > extent`, or
moving left and `x - BUNNY_SIZE/2 < 0`), and `velocity.y` is reflected
exactly when falling (post-gravity `velocity.y < 0`) with integrated
`y < BUNNY_SIZE/2`; each reflection only flips the sign — magnitudes are
preserved and the position is untouched. -/
theorem C5_reflection_exact (W : ℚ) (b : Locals) :
    ((physStep W b).velocity.1 =
      if (b.velocity.1 > 0
            ∧ b.position.1 + b.velocity.1 * delta + BUNNY_SIZE / 2 > W)
          ∨ (b.velocity.1 < 0
            ∧ b.position.1 + b.velocity.1 * delta - BUNNY_SIZE / 2 < 0)
      then -b.velocity.1 else b.velocity.1) ∧
    ((physStep W b).velocity.2 =
      if b.velocity.2 + GRAVITY * delta < 0
          ∧ b.position.2 + b.velocity.2 * delta < BUNNY_SIZE / 2
      then -(b.velocity.2 + GRAVITY * delta) else b.velocity.2 + GRAVITY * delta) ∧
    |(physStep W b).velocity.1| = |b.velocity.1| ∧
    |(physStep W b).velocity.2| = |b.velocity.2 + GRAVITY * delta| ∧
    (physStep W b).position.1 = b.position.1 + b.velocity.1 * delta ∧
    (physStep W b).position.2 = b.position.2 + b.velocity.2 * delta := by
  have hhalf : (1 / 2 : ℚ) * BUNNY_SIZE = BUNNY_SIZE / 2 := by ring
  dsimp only [physStep]
  rw [hhalf]
  refine ⟨rfl, rfl, ?_, ?_, rfl, rfl⟩
  · split
    · rw [abs_neg]
    · rfl
  · split
    · rw [abs_neg]
    · rfl

/-- The x-axis invariant preserved by the physics step: horizontal speed
`c` is conserved, the position overshoots `[0, extentX]` by at most
`c * delta`, rightward motion only occurs from `x ≤ extentX`, and leftward
motion only from `0 ≤ x`. -/
def xInv (extentX c : ℚ) (b : Locals) : Prop :=
  |b.velocity.1| = c ∧
  -(c * delta) ≤ b.position.1 ∧ b.position.1 ≤ extentX + c * delta ∧
  (0 < b.velocity.1 → b.position.1 ≤ extentX) ∧
  (b.velocity.1 < 0 → 0 ≤ b.position.1)

theorem xInv_step {W c : ℚ} (hW : 0 ≤ W) {b : Locals} (h : xInv W c b) :
    xInv W c (physStep W b) := by
  obtain ⟨habs, hlo, hhi, hP, hQ⟩ := h
  have hdel : (0 : ℚ) ≤ delta := by norm_num [delta]
  have hS : (0 : ℚ) ≤ 1 / 2 * BUNNY_SIZE := by norm_num [BUNNY_SIZE]
  have hc : 0 ≤ c := habs ▸ abs_nonneg _
  have hcd : 0 ≤ c * delta := mul_nonneg hc hdel
  dsimp only [xInv, physStep]
  by_cases hC : (b.velocity.1 > 0
        ∧ b.position.1 + b.velocity.1 * delta + 1 / 2 * BUNNY_SIZE > W)
      ∨ (b.velocity.1 < 0
        ∧ b.position.1 + b.velocity.1 * delta - 1 / 2 * BUNNY_SIZE < 0)
  · rw [if_pos hC]
    rcases hC with ⟨hv0, _⟩ | ⟨hv0, _⟩
    · have hvd : b.velocity.1 * delta = c * delta := by
        rw [← habs, abs_of_pos hv0]
      have hvd0 : 0 ≤ b.velocity.1 * delta := mul_nonneg hv0.le hdel
      refine ⟨by rw [abs_neg, habs], by linarith, by linarith [hP hv0], ?_, ?_⟩
      · intro hcontra; linarith
      · intro hdummy; linarith
    · have hvd : b.velocity.1 * delta = -(c * delta) := by
        rw [← habs, abs_of_neg hv0]; ring
      refine ⟨by rw [abs_neg, habs], by linarith [hQ hv0], by linarith, ?_, ?_⟩
      · intro hdummy; linarith
      · intro hcontra; linarith
  · rw [if_neg hC]
    push_neg at hC
    obtain ⟨hCr, hCl⟩ := hC
    have hvle : b.velocity.1 ≤ c := by rw [← habs]; exact le_abs_self _
    have hvged : -(c * delta) ≤ b.velocity.1 * delta := by
      have h1 : (-c) * delta ≤ b.velocity.1 * delta := by
        apply mul_le_mul_of_nonneg_right ?_ hdel
        rw [← habs]; exact neg_abs_le _
      linarith [h1]
    have hvled : b.velocity.1 * delta ≤ c * delta :=
      mul_le_mul_of_nonneg_right hvle hdel
    refine ⟨habs, ?_, ?_, ?_, ?_⟩
    · rcases lt_trichotomy b.velocity.1 0 with hv0 | hv0 | hv0
      · have hx0 := hQ hv0
        linarith
      · have hz : b.velocity.1 * delta = 0 := by rw [hv0, zero_mul]
        linarith
      · have hnn : 0 ≤ b.velocity.1 * delta := mul_nonneg hv0.le hdel
        linarith
    · rcases le_or_lt b.velocity.1 0 with hv0 | hv0
      · have hnp : b.velocity.1 * delta ≤ 0 := mul_nonpos_of_nonpos_of_nonneg hv0 hdel
        linarith
      · have hxw := hP hv0
        linarith
    · intro hv0
      have hover := hCr hv0
      linarith
    · intro hv0
      have hover := hCl hv0
      linarith

theorem reach_xInv {W c : ℚ} (hW : 0 ≤ W) {b0 b : Locals}
    (h0 : xInv W c b0) (hr : ReachFrom W b0 b) : xInv W c b := by
  induction hr with
  | refl => exact h0
  | step _ ih => exact xInv_step hW ih

/-- Claim C6: for every state reachable from a spawn (at `x = 0`) by
iterating the physics step with fixed `delta` and a fixed window width
`W ≥ 0`, the position never leaves `[0, W]` on the bounce axis by more
than one integration step's overshoot, `|velocity.x| * delta` (the
horizontal speed is conserved by the step, so this is also the initial
speed times `delta`). -/
theorem C6_bounce_axis_overshoot (W extentY : ℚ) (nanos : ℕ) (b : Locals)
    (hW : 0 ≤ W) (hr : ReachFrom W (newBunny nanos extentY) b) :
    -(|b.velocity.1| * delta) ≤ b.position.1 ∧
    b.position.1 ≤ W + |b.velocity.1| * delta := by
  have hdel : (0 : ℚ) ≤ delta := by norm_num [delta]
  have h0 : xInv W |(newBunny nanos extentY).velocity.1| (newBunny nanos extentY) := by
    have hcd : 0 ≤ |(newBunny nanos extentY).velocity.1| * delta :=
      mul_nonneg (abs_nonneg _) hdel
    refine ⟨rfl, ?_, ?_, ?_, ?_⟩
    · show -(|(newBunny nanos extentY).velocity.1| * delta) ≤ 0
      linarith
    · show (0 : ℚ) ≤ W + |(newBunny nanos extentY).velocity.1| * delta
      linarith
    · intro hdummy
      exact hW
    · intro hdummy
      exact le_refl 0
  have hinv := reach_xInv hW h0 hr
  obtain ⟨habs, hlo, hhi, _, _⟩ := hinv
  rw [habs]
  exact ⟨hlo, hhi⟩

/-- Concrete instantiation of `C6_bounce_axis_overshoot` for an 800×600
window at the spawn state itself. -/
theorem C6_bounce_axis_overshoot_witness :
    -(|(newBunny 0 600).velocity.1| * delta) ≤ (newBunny 0 600).position.1 ∧
    (newBunny 0 600).position.1 ≤ 800 + |(newBunny 0 600).velocity.1| * delta :=
  C6_bounce_axis_overshoot 800 600 0 (newBunny 0 600) (by norm_num) ReachFrom.refl

/-- Concrete instantiation of `C4_physics_tick_scenario`'s per-instance
scenario part at the (unique) batch member. -/
theorem C4_physics_tick_scenario_witness :
    newBunny 0 600 ∈ spawnBatch [] 0 600 ∧
    ((newBunny 0 600).position = (0, 300) ∧ (newBunny 0 600).velocity.2 = 0 ∧
      (physStep 800 (newBunny 0 600)).velocity.2 = GRAVITY * delta ∧
      (physStep 800 (newBunny 0 600)).position.1 = (newBunny 0 600).velocity.1 * delta) := by
  have hmem : newBunny 0 600 ∈ spawnBatch [] 0 600 := by
    simp [spawnBatch, spawnCount]
  exact ⟨hmem, C4_physics_tick_scenario.2.2 _ hmem⟩

/-- Concrete instantiation of `C10_batch_uniform`'s membership part. -/
theorem C10_batch_uniform_witness :
    newBunny 0 600 ∈ (spawnBatch [] 0 600).drop (List.length ([] : List Locals)) ∧
    newBunny 0 600 = newBunny 0 600 := by
  have hmem : newBunny 0 600 ∈ (spawnBatch [] 0 600).drop (List.length ([] : List Locals)) := by
    simp [spawnBatch, spawnCount]
  exact ⟨hmem, (C10_batch_uniform [] 0 600).2 _ hmem⟩

end Bunnymark

